import Mathlib

set_option autoImplicit false

/-!
Shallow embedding of the filter-and-bound subsystem of the repository.

The embedded code is:
* `stringArrayTotalLength`, `stringArrayTrimToLength` and
  `stringArrayApplyLimits` from `src/tools/utils.ts`;
* the console message classifier and the console/network filter pipelines
  from the two tool modules (`browser_console_messages`,
  `browser_network_requests`).

Modelling conventions: JS numbers on these code paths carry integer
values and are modelled as `Nat` (or `Int` where the source expression
can go negative); lengths, counts and their sums are exact in IEEE double
arithmetic as long as they stay below `2^53`, which the model assumes.
The one place where the source genuinely computes with non-integer
doubles — `Math.floor(maxTotalLength * (lengthFirst / totalLength))` —
is modelled bit-exactly by `jsFloorMulDiv`: the division and the
multiplication are each rounded to the nearest IEEE double (round to
nearest, ties to even) using exact integer arithmetic, and the floor of
the resulting double is returned.  The host regex engine and URL parser
are external collaborators and are modelled as explicit oracle
parameters (`compile`, `host`); a pattern whose compilation fails raises
the host error, modelled as `Except.error` carrying the pattern text.
-/

/-! ### `stringArrayTotalLength` (utils.ts) -/

def stringArrayTotalLength (strings : List String) : Nat :=
  strings.foldl (fun length str => length + str.length) 0

/-! ### `stringArrayTrimToLength` (utils.ts)

The `preferEnd` branch iterates `i` from the last index downwards; the
list argument of the loop is the still-unprocessed part of the reversed
array.  `index` starts at `0` and records the last position whose
cumulative suffix length still fit; the function returns
`strings.slice(index)`.  The forward branch records `i + 1` after each
element that still fits and returns `strings.slice(0, index)`. -/

def trimToLengthEndLoop (maxLength : Nat) : List String → Nat → Nat → Nat → Nat
  | [], _, _, index => index
  | str :: rev, length, i, index =>
    if length + str.length > maxLength then index
    else trimToLengthEndLoop maxLength rev (length + str.length) (i - 1) i

def trimToLengthStartLoop (maxLength : Nat) : List String → Nat → Nat → Nat
  | [], _, index => index
  | str :: rest, length, index =>
    if length + str.length > maxLength then index
    else trimToLengthStartLoop maxLength rest (length + str.length) (index + 1)

def stringArrayTrimToLength (strings : List String) (maxLength : Nat)
    (preferEnd : Bool) : List String :=
  if preferEnd then
    strings.drop (trimToLengthEndLoop maxLength strings.reverse 0 (strings.length - 1) 0)
  else
    strings.take (trimToLengthStartLoop maxLength strings 0 0)

/-! ### IEEE double semantics of `maxTotalLength * (lengthFirst / totalLength)`

A positive IEEE double is `m * 2^(e - 52)` with mantissa
`2^52 ≤ m ≤ 2^53` (allowing `m = 2^53` spares the renormalisation after
a round-up: the value is the same); rounding a positive rational to a
double picks the nearest representable mantissa in the rational's binade,
ties going to the even mantissa.  All arithmetic below is exact over
`Nat`/`Int`. -/

/-- Round `a / b` (with `b ≠ 0`) to the nearest integer, ties to even. -/
def rneDiv (a b : Nat) : Nat :=
  let q := a / b
  let r := a % b
  if 2 * r < b then q
  else if 2 * r > b then q + 1
  else if q % 2 = 0 then q else q + 1

def natBitsAux : Nat → Nat → Nat
  | 0, _ => 0
  | fuel + 1, n => if n = 0 then 0 else natBitsAux fuel (n / 2) + 1

/-- Number of binary digits of `n` (`0 ↦ 0`); the structural fuel `n`
suffices since halving reaches `0` within `n` steps. -/
def natBits (n : Nat) : Nat :=
  natBitsAux n n

/-- The binade of the positive rational `p / q`: the unique `e` with
`2^e ≤ p / q < 2^(e+1)`. -/
def ratBinade (p q : Nat) : Int :=
  let e0 : Int := (natBits p : Int) - (natBits q : Int)
  if 0 ≤ e0 then
    if q * 2 ^ e0.toNat ≤ p then e0 else e0 - 1
  else
    if q ≤ p * 2 ^ (-e0).toNat then e0 else e0 - 1

/-- The mantissa of the IEEE double nearest to the positive rational
`p / q`: the value of that double is
`roundRatMantissa p q * 2^(ratBinade p q - 52)`. -/
def roundRatMantissa (p q : Nat) : Nat :=
  let e := ratBinade p q
  let s : Int := 52 - e
  if 0 ≤ s then rneDiv (p * 2 ^ s.toNat) q
  else rneDiv p (q * 2 ^ (-s).toNat)

/-- `Math.floor(b * (f / t))` in IEEE double arithmetic, for doubles
holding the integer values `b`, `f`, `t`: round `f / t` to the nearest
double, multiply by `b` and round again, then take the floor.  Exact for
integer inputs below `2^53` (the source's call site guarantees `t ≠ 0`;
the `t = 0` branch is an arbitrary total-function value). -/
def jsFloorMulDiv (b f t : Nat) : Nat :=
  if b = 0 ∨ f = 0 ∨ t = 0 then 0
  else
    let m1 := roundRatMantissa f t
    let s1 : Int := ratBinade f t - 52
    let p2 := if 0 ≤ s1 then b * m1 * 2 ^ s1.toNat else b * m1
    let q2 := if 0 ≤ s1 then 1 else 2 ^ (-s1).toNat
    let m2 := roundRatMantissa p2 q2
    let s2 : Int := ratBinade p2 q2 - 52
    if 0 ≤ s2 then m2 * 2 ^ s2.toNat else m2 / 2 ^ (-s2).toNat

/-! ### `stringArrayApplyLimits` (utils.ts) -/

structure StringArrayApplyLimitsOptions where
  maxTotalLength : Nat
  countFirst : Option Nat
  countLast : Option Nat

/-- JS truthiness of the optional counts: `undefined`, `null` and `0` are
all falsy in `if (countFirst && countLast)`. -/
def optCountTruthy : Option Nat → Bool
  | none => false
  | some n => n != 0

def stringArrayApplyLimits (strings : List String)
    (options : StringArrayApplyLimitsOptions) : List String :=
  if optCountTruthy options.countFirst && optCountTruthy options.countLast then
    let countFirst := options.countFirst.getD 0
    let countLast := options.countLast.getD 0
    let firstN := strings.take countFirst
    let lastN := strings.drop (strings.length - countLast)
    let lengthFirst := stringArrayTotalLength firstN
    let lengthLast := stringArrayTotalLength lastN
    let totalLength := lengthFirst + lengthLast
    if totalLength > options.maxTotalLength then
      let maxLengthFirst := jsFloorMulDiv options.maxTotalLength lengthFirst totalLength
      let maxLengthLast := options.maxTotalLength - maxLengthFirst
      let trimmedFirst := stringArrayTrimToLength firstN maxLengthFirst false
      let trimmedLast := stringArrayTrimToLength lastN maxLengthLast true
      let skippedFirst := firstN.length - trimmedFirst.length
      let skippedLast := lastN.length - trimmedLast.length
      let totalSkipped : Int :=
        (strings.length : Int) - countFirst - countLast + skippedFirst + skippedLast
      trimmedFirst ++ [s!"[{totalSkipped} messages skipped]"] ++ trimmedLast
    else
      firstN ++ lastN
  else if optCountTruthy options.countFirst then
    let countFirst := options.countFirst.getD 0
    let result := strings.take countFirst
    let trimmed := stringArrayTrimToLength result options.maxTotalLength false
    let skipped := result.length - trimmed.length
    if skipped > 0 then trimmed ++ [s!"[{skipped} messages trimmed]"] else trimmed
  else if optCountTruthy options.countLast then
    let countLast := options.countLast.getD 0
    let result := strings.drop (strings.length - countLast)
    let trimmed := stringArrayTrimToLength result options.maxTotalLength true
    let skipped := result.length - trimmed.length
    if skipped > 0 then s!"[{skipped} messages trimmed]" :: trimmed else trimmed
  else
    let trimmed := stringArrayTrimToLength strings options.maxTotalLength true
    let skipped := strings.length - trimmed.length
    if skipped > 0 then s!"[{skipped} messages trimmed]" :: trimmed else trimmed

/-! Sanity checks against hand-traced runs of the source. -/

example : stringArrayTrimToLength ["ab", "cd", "ef"] 4 false = ["ab", "cd"] := by decide
example : stringArrayTrimToLength ["ab", "cd", "ef"] 4 true = ["cd", "ef"] := by decide
example : stringArrayTrimToLength ["ab", "cd", "ef"] 1 false = [] := by decide
example : stringArrayTrimToLength ["ab", "cd", "ef"] 1 true = ["ab", "cd", "ef"] := by decide
example : stringArrayApplyLimits ["aaaa"] ⟨2, none, none⟩ = ["aaaa"] := by decide
example : stringArrayApplyLimits ["ab", "cd", "ef"] ⟨4, none, none⟩ =
    ["[1 messages trimmed]", "cd", "ef"] := by decide
example : stringArrayApplyLimits ["ab", "cd"] ⟨3, some 3, some 3⟩ =
    ["[-1 messages skipped]", "cd"] := by decide
example : stringArrayApplyLimits ["a", "bbbbbbbbbb"] ⟨5, some 1, some 1⟩ =
    ["[1 messages skipped]", "bbbbbbbbbb"] := by decide
example : stringArrayApplyLimits ["aa", "bb", "cc"] ⟨3, some 1, some 1⟩ =
    ["[2 messages skipped]", "cc"] := by decide
example : jsFloorMulDiv 22 30 44 = 14 := by decide
example : jsFloorMulDiv 3 4 8 = 1 := by decide
example : jsFloorMulDiv 5 1 11 = 0 := by decide
example : stringArrayApplyLimits
    ["aaaaaaaaaaaaaaa", "bbbbbbbbbbbbbbb", "cccccc", "dddddddd"] ⟨22, some 2, some 2⟩ =
    ["[3 messages skipped]", "dddddddd"] := by decide

/-! ### Lemmas about `stringArrayTotalLength` -/

theorem stringArrayTotalLength_eq (l : List String) :
    stringArrayTotalLength l = (l.map String.length).sum := by
  have aux : ∀ (t : List String) (acc : Nat),
      t.foldl (fun length str => length + str.length) acc
        = acc + (t.map String.length).sum := by
    intro t
    induction t with
    | nil => intro acc; simp
    | cons s rest ih => intro acc; simp [List.foldl, ih, Nat.add_assoc]
  simpa [stringArrayTotalLength] using aux l 0

theorem stringArrayTotalLength_cons (s : String) (l : List String) :
    stringArrayTotalLength (s :: l) = s.length + stringArrayTotalLength l := by
  simp [stringArrayTotalLength_eq]

theorem stringArrayTotalLength_reverse (l : List String) :
    stringArrayTotalLength l.reverse = stringArrayTotalLength l := by
  simp [stringArrayTotalLength_eq, List.map_reverse, List.sum_reverse]

theorem stringArrayTotalLength_drop_reverse (l : List String) (a : Nat) :
    stringArrayTotalLength (l.drop (l.length - a))
      = stringArrayTotalLength (l.reverse.take a) := by
  have h1 : (l.reverse.take a).reverse = l.drop (l.length - a) := by
    rw [List.reverse_take]; simp
  rw [← h1, stringArrayTotalLength_reverse]

/-! ### The accepted-element count of the trimming loops

Both loops of `stringArrayTrimToLength` accept elements while the running
total stays within `maxLength`; `trimFitCount` is that count (the forward
loop's final `index`, starting from `0`). -/

def trimFitCount (maxLength : Nat) (l : List String) (length : Nat) : Nat :=
  trimToLengthStartLoop maxLength l length 0

theorem trimToLengthStartLoop_shift (maxLength : Nat) (l : List String) :
    ∀ length index, trimToLengthStartLoop maxLength l length index
        = index + trimToLengthStartLoop maxLength l length 0 := by
  induction l with
  | nil => intro length index; simp [trimToLengthStartLoop]
  | cons str rest ih =>
    intro length index
    simp only [trimToLengthStartLoop]
    by_cases h : length + str.length > maxLength
    · simp [h]
    · simp only [if_neg h]
      rw [ih (length + str.length) (index + 1), ih (length + str.length) (0 + 1)]
      omega

theorem trimFitCount_cons (maxLength : Nat) (str : String) (rest : List String)
    (length : Nat) :
    trimFitCount maxLength (str :: rest) length
      = if length + str.length > maxLength then 0
        else trimFitCount maxLength rest (length + str.length) + 1 := by
  simp only [trimFitCount, trimToLengthStartLoop]
  by_cases h : length + str.length > maxLength
  · simp [h]
  · simp only [if_neg h]
    rw [trimToLengthStartLoop_shift]
    omega

theorem trimFitCount_le_length (maxLength : Nat) (l : List String) :
    ∀ length, trimFitCount maxLength l length ≤ l.length := by
  induction l with
  | nil => intro length; simp [trimFitCount, trimToLengthStartLoop]
  | cons s t ih =>
    intro length
    rw [trimFitCount_cons]
    by_cases h : length + s.length > maxLength
    · simp [h]
    · simp only [if_neg h, List.length_cons]
      exact Nat.succ_le_succ (ih _)

theorem trimFitCount_fits (maxLength : Nat) (l : List String) :
    ∀ length, length ≤ maxLength →
      length + stringArrayTotalLength (l.take (trimFitCount maxLength l length))
        ≤ maxLength := by
  induction l with
  | nil =>
    intro length h
    simpa [trimFitCount, trimToLengthStartLoop, stringArrayTotalLength] using h
  | cons s t ih =>
    intro length h
    rw [trimFitCount_cons]
    by_cases hb : length + s.length > maxLength
    · simp only [if_pos hb]
      have h3 : stringArrayTotalLength ((s :: t).take 0) = 0 := by
        simp [stringArrayTotalLength]
      omega
    · simp only [if_neg hb]
      have h2 := ih (length + s.length) (by omega)
      have h3 : stringArrayTotalLength
            ((s :: t).take (trimFitCount maxLength t (length + s.length) + 1))
          = s.length
            + stringArrayTotalLength (t.take (trimFitCount maxLength t (length + s.length))) := by
        simp [stringArrayTotalLength_eq]
      omega

theorem trimFitCount_maximal (maxLength : Nat) (l : List String) :
    ∀ length, trimFitCount maxLength l length < l.length →
      length + stringArrayTotalLength (l.take (trimFitCount maxLength l length + 1))
        > maxLength := by
  induction l with
  | nil => intro length h; simp [trimFitCount, trimToLengthStartLoop] at h
  | cons s t ih =>
    intro length h
    rw [trimFitCount_cons] at h ⊢
    by_cases hb : length + s.length > maxLength
    · simp only [if_pos hb]
      have h3 : stringArrayTotalLength ((s :: t).take (0 + 1)) = s.length := by
        simp [stringArrayTotalLength_eq]
      omega
    · simp only [if_neg hb] at h ⊢
      have h' : trimFitCount maxLength t (length + s.length) < t.length := by
        simp only [List.length_cons] at h; omega
      have h2 := ih (length + s.length) h'
      have h3 : stringArrayTotalLength
            ((s :: t).take (trimFitCount maxLength t (length + s.length) + 1 + 1))
          = s.length
            + stringArrayTotalLength
                (t.take (trimFitCount maxLength t (length + s.length) + 1)) := by
        simp [stringArrayTotalLength_eq]
      omega

theorem trimFitCount_all (maxLength : Nat) (l : List String) :
    ∀ length, length + stringArrayTotalLength l ≤ maxLength →
      trimFitCount maxLength l length = l.length := by
  induction l with
  | nil => intro length _; rfl
  | cons s t ih =>
    intro length h
    rw [stringArrayTotalLength_cons] at h
    rw [trimFitCount_cons, if_neg (by omega)]
    simp [ih (length + s.length) (by omega)]

/-! ### Characterization of `stringArrayTrimToLength` -/

theorem stringArrayTrimToLength_start_eq (l : List String) (maxLength : Nat) :
    stringArrayTrimToLength l maxLength false
      = l.take (trimFitCount maxLength l 0) := rfl

theorem trimToLengthEndLoop_eq (maxLength : Nat) (l : List String) :
    ∀ length i index, trimToLengthEndLoop maxLength l length i index
      = if trimFitCount maxLength l length = 0 then index
        else i - (trimFitCount maxLength l length - 1) := by
  induction l with
  | nil =>
    intro length i index
    simp [trimToLengthEndLoop, trimFitCount, trimToLengthStartLoop]
  | cons s t ih =>
    intro length i index
    simp only [trimToLengthEndLoop]
    rw [trimFitCount_cons]
    by_cases hb : length + s.length > maxLength
    · simp [hb]
    · simp only [if_neg hb]
      rw [ih (length + s.length) (i - 1) i]
      by_cases hz : trimFitCount maxLength t (length + s.length) = 0
      · simp [hz]
      · rw [if_neg hz, if_neg (by omega)]
        omega

theorem stringArrayTrimToLength_end_eq (l : List String) (maxLength : Nat) :
    stringArrayTrimToLength l maxLength true
      = if trimFitCount maxLength l.reverse 0 = 0 then l
        else l.drop (l.length - trimFitCount maxLength l.reverse 0) := by
  have hle : trimFitCount maxLength l.reverse 0 ≤ l.length := by
    have := trimFitCount_le_length maxLength l.reverse 0
    simpa using this
  show l.drop (trimToLengthEndLoop maxLength l.reverse 0 (l.length - 1) 0) = _
  rw [trimToLengthEndLoop_eq]
  by_cases hz : trimFitCount maxLength l.reverse 0 = 0
  · simp [hz]
  · rw [if_neg hz, if_neg hz]
    congr 1
    omega

theorem stringArrayTrimToLength_start_fits (l : List String) (maxLength : Nat) :
    stringArrayTotalLength (stringArrayTrimToLength l maxLength false) ≤ maxLength := by
  rw [stringArrayTrimToLength_start_eq]
  have := trimFitCount_fits maxLength l 0 (Nat.zero_le _)
  omega

theorem stringArrayTrimToLength_end_fits (l : List String) (maxLength : Nat)
    (h : trimFitCount maxLength l.reverse 0 ≠ 0) :
    stringArrayTotalLength (stringArrayTrimToLength l maxLength true) ≤ maxLength := by
  rw [stringArrayTrimToLength_end_eq, if_neg h]
  rw [stringArrayTotalLength_drop_reverse l (trimFitCount maxLength l.reverse 0)]
  have := trimFitCount_fits maxLength l.reverse 0 (Nat.zero_le _)
  omega

theorem stringArrayTrimToLength_end_all (l : List String) (maxLength : Nat)
    (h : stringArrayTotalLength l ≤ maxLength) :
    stringArrayTrimToLength l maxLength true = l := by
  have hc : trimFitCount maxLength l.reverse 0 = l.length := by
    have := trimFitCount_all maxLength l.reverse 0
      (by rw [stringArrayTotalLength_reverse]; omega)
    simpa using this
  rw [stringArrayTrimToLength_end_eq]
  by_cases hz : trimFitCount maxLength l.reverse 0 = 0
  · simp [hz]
  · rw [if_neg hz, hc]
    simp

/-! ### The `countFirst && countLast` overflow branch of `stringArrayApplyLimits` -/

theorem stringArrayApplyLimits_both_over (strings : List String) (budget F L : Nat)
    (mF mL : Nat) (tF tL : List String) (cnt : Int)
    (hF : F ≠ 0) (hL : L ≠ 0)
    (hmF : mF = jsFloorMulDiv budget (stringArrayTotalLength (strings.take F))
        (stringArrayTotalLength (strings.take F)
          + stringArrayTotalLength (strings.drop (strings.length - L))))
    (hmL : mL = budget - mF)
    (htF : tF = stringArrayTrimToLength (strings.take F) mF false)
    (htL : tL = stringArrayTrimToLength (strings.drop (strings.length - L)) mL true)
    (hcnt : cnt = (strings.length : Int) - F - L
        + (((strings.take F).length - tF.length : Nat) : Int)
        + (((strings.drop (strings.length - L)).length - tL.length : Nat) : Int))
    (hover : stringArrayTotalLength (strings.take F)
        + stringArrayTotalLength (strings.drop (strings.length - L)) > budget) :
    stringArrayApplyLimits strings ⟨budget, some F, some L⟩
      = tF ++ [s!"[{cnt} messages skipped]"] ++ tL := by
  subst hmL htF htL hcnt hmF
  have hcond : (optCountTruthy (some F) && optCountTruthy (some L)) = true := by
    simp [optCountTruthy, hF, hL]
  unfold stringArrayApplyLimits
  dsimp only
  split
  · split
    · rfl
    · next h2 => exact absurd hover h2
  · next h1 => exact absurd hcond h1

/-! ### Claims about the window trimmer -/

/-- C1: the spec says the total rendered length of the non-marker lines
returned by `stringArrayApplyLimits` never exceeds the budget, and that a
budget smaller than a single line keeps zero lines from the preferred
side.  The code violates this: in the `preferEnd` loop the initial
`index = 0` means that when even the final line alone exceeds the budget,
`slice(0)` returns the whole array.  At `strings = ["aaaa"]`,
`maxTotalLength = 2`, no `first`/`last`, the call returns the full line of
length 4 > 2 with no marker. -/
theorem stringArrayApplyLimits_budget_violation_c1 :
    stringArrayApplyLimits ["aaaa"] ⟨2, none, none⟩ = ["aaaa"] ∧
    stringArrayTotalLength (stringArrayApplyLimits ["aaaa"] ⟨2, none, none⟩) = 4 ∧
    4 > 2 := by decide

/-- C2 counterexample: with `strings = ["ab", "cd"]`, `first = 3`,
`last = 3` and budget `3`, the two slices overlap (the sequence has fewer
than `F + L` entries) and the marker reads `-1` even though exactly one
source line (`"ab"`) is excluded from the result, so the marker count does
not equal the number of excluded lines. -/
theorem stringArrayApplyLimits_marker_miscount_c2 :
    stringArrayApplyLimits ["ab", "cd"] ⟨3, some 3, some 3⟩
        = ["[-1 messages skipped]", "cd"] ∧
    (["ab", "cd"].filter
        (fun s => !(stringArrayApplyLimits ["ab", "cd"] ⟨3, some 3, some 3⟩).contains s)).length
      = 1 := by decide

/-- C2 (amended): when both `first = F` and `last = L` are given, the two
slices exceed the budget, and the slices do not overlap
(`F + L ≤ strings.length`), the count in the inserted marker equals
exactly the number of source lines excluded from the result: the source
length minus the number of non-marker result lines. -/
theorem stringArrayApplyLimits_marker_exact (strings : List String) (budget F L : Nat)
    (hF : F ≠ 0) (hL : L ≠ 0) (hFL : F + L ≤ strings.length)
    (hover : stringArrayTotalLength (strings.take F)
        + stringArrayTotalLength (strings.drop (strings.length - L)) > budget) :
    ∃ (tF tL : List String) (cnt : Int),
      stringArrayApplyLimits strings ⟨budget, some F, some L⟩
        = tF ++ [s!"[{cnt} messages skipped]"] ++ tL ∧
      cnt = (strings.length : Int) - tF.length - tL.length := by
  set fN := strings.take F with hfN
  set lN := strings.drop (strings.length - L) with hlN
  set mF := jsFloorMulDiv budget (stringArrayTotalLength fN)
      (stringArrayTotalLength fN + stringArrayTotalLength lN) with hmF
  set tF := stringArrayTrimToLength fN mF false with htF
  set tL := stringArrayTrimToLength lN (budget - mF) true with htL
  have hbody := stringArrayApplyLimits_both_over strings budget F L mF (budget - mF) tF tL
      ((strings.length : Int) - F - L + ((fN.length - tF.length : Nat) : Int)
        + ((lN.length - tL.length : Nat) : Int))
      hF hL rfl rfl rfl rfl rfl hover
  refine ⟨tF, tL, _, hbody, ?_⟩
  have h1 : fN.length = F := by
    rw [hfN]; simp [List.length_take]; omega
  have h2 : lN.length = L := by
    rw [hlN]; simp [List.length_drop]; omega
  have h3 : tF.length ≤ fN.length := by
    rw [htF, stringArrayTrimToLength_start_eq]
    simp [List.length_take]
  have h4 : tL.length ≤ lN.length := by
    rw [htL, stringArrayTrimToLength_end_eq]
    split
    · exact Nat.le_refl _
    · simp [List.length_drop]
  omega

/-- C2 witness: the amended marker-count theorem applied at
`["aa", "bb", "cc"]`, `budget = 3`, `first = 1`, `last = 1`. -/
theorem stringArrayApplyLimits_marker_exact_witness :
    (1 : Nat) ≠ 0 ∧ 1 + 1 ≤ (["aa", "bb", "cc"] : List String).length ∧
    stringArrayTotalLength (["aa", "bb", "cc"].take 1)
      + stringArrayTotalLength
          (["aa", "bb", "cc"].drop ((["aa", "bb", "cc"] : List String).length - 1)) > 3 ∧
    ∃ (tF tL : List String) (cnt : Int),
      stringArrayApplyLimits ["aa", "bb", "cc"] ⟨3, some 1, some 1⟩
        = tF ++ [s!"[{cnt} messages skipped]"] ++ tL ∧
      cnt = ((["aa", "bb", "cc"] : List String).length : Int) - tF.length - tL.length :=
  ⟨by decide, by decide, by decide,
    stringArrayApplyLimits_marker_exact ["aa", "bb", "cc"] 3 1 1
      (by decide) (by decide) (by decide) (by decide)⟩

/-- C5 counterexample: both parts of the claim fail on the code.
First, the budgets are not the exact integer floor of the rational value:
at budget 22, lenFirst 30, totalLength 44 the source's float computation
`Math.floor(22 * (30/44))` yields 14 while the exact floor is 15, and the
end-to-end output at `["a"*15, "b"*15, "c"*6, "d"*8]`, `first = 2`,
`last = 2` reflects the float value (budgetFirst 14 keeps no first-slice
line, so the marker reads 3).  Second, the last slice is not always
trimmed to a maximal trailing run fitting budgetLast: at
`["a", "bbbbbbbbbb"]`, `first = 1`, `last = 1`, budget 5, budgetLast is 5
but the kept run has length 10 (the `preferEnd` loop returns the whole
slice when even its final line alone exceeds the sub-budget). -/
theorem stringArrayApplyLimits_c5_counterexample :
    jsFloorMulDiv 22 30 44 = 14 ∧ 22 * 30 / 44 = 15 ∧
    stringArrayApplyLimits
        ["aaaaaaaaaaaaaaa", "bbbbbbbbbbbbbbb", "cccccc", "dddddddd"] ⟨22, some 2, some 2⟩
      = ["[3 messages skipped]", "dddddddd"] ∧
    stringArrayApplyLimits ["a", "bbbbbbbbbb"] ⟨5, some 1, some 1⟩
      = ["[1 messages skipped]", "bbbbbbbbbb"] ∧
    stringArrayTotalLength ["bbbbbbbbbb"]
      > 5 - jsFloorMulDiv 5 (stringArrayTotalLength ["a"])
          (stringArrayTotalLength ["a"] + stringArrayTotalLength ["bbbbbbbbbb"]) := by
  decide

/-- C5 (amended): in the both-`first`-and-`last` overflow case the budgets
are split as `budgetFirst = Math.floor(budget * (lenFirst / (lenFirst +
lenLast)))` evaluated in IEEE double arithmetic (`jsFloorMulDiv`, which
can differ from the exact rational floor, and may assign zero budget to
one side) and `budgetLast = budget - budgetFirst`; the first slice is
trimmed from its tail to the maximal leading run fitting `budgetFirst`;
the last slice is trimmed from its head to a run fitting `budgetLast`
that is maximal, except that when even the final line of the last slice
exceeds `budgetLast` the whole slice is returned untrimmed. -/
theorem stringArrayApplyLimits_proportional_split (strings : List String) (budget F L : Nat)
    (hF : F ≠ 0) (hL : L ≠ 0)
    (hover : stringArrayTotalLength (strings.take F)
        + stringArrayTotalLength (strings.drop (strings.length - L)) > budget) :
    ∃ (mF : Nat) (tF tL : List String) (cnt : Int),
      mF = jsFloorMulDiv budget (stringArrayTotalLength (strings.take F))
        (stringArrayTotalLength (strings.take F)
          + stringArrayTotalLength (strings.drop (strings.length - L))) ∧
      tF = stringArrayTrimToLength (strings.take F) mF false ∧
      tL = stringArrayTrimToLength (strings.drop (strings.length - L)) (budget - mF) true ∧
      stringArrayApplyLimits strings ⟨budget, some F, some L⟩
        = tF ++ [s!"[{cnt} messages skipped]"] ++ tL ∧
      stringArrayTotalLength tF ≤ mF ∧
      (tF = strings.take F
        ∨ stringArrayTotalLength ((strings.take F).take (tF.length + 1)) > mF) ∧
      ((stringArrayTotalLength tL ≤ budget - mF ∧
          (tL = strings.drop (strings.length - L)
            ∨ stringArrayTotalLength
                ((strings.drop (strings.length - L)).drop
                  ((strings.drop (strings.length - L)).length - tL.length - 1))
                > budget - mF))
        ∨ (∃ s, (strings.drop (strings.length - L)).getLast? = some s
            ∧ s.length > budget - mF
            ∧ tL = strings.drop (strings.length - L))) := by
  set fN := strings.take F with hfN
  set lN := strings.drop (strings.length - L) with hlN
  set mF := jsFloorMulDiv budget (stringArrayTotalLength fN)
      (stringArrayTotalLength fN + stringArrayTotalLength lN) with hmF
  set mL := budget - mF with hmL
  set tF := stringArrayTrimToLength fN mF false with htF
  set tL := stringArrayTrimToLength lN mL true with htL
  have hbody := stringArrayApplyLimits_both_over strings budget F L mF mL tF tL
      ((strings.length : Int) - F - L + ((fN.length - tF.length : Nat) : Int)
        + ((lN.length - tL.length : Nat) : Int))
      hF hL rfl rfl rfl rfl rfl hover
  refine ⟨mF, tF, tL, _, rfl, rfl, rfl, hbody, ?_, ?_, ?_⟩
  · rw [htF]
    exact stringArrayTrimToLength_start_fits fN mF
  · have hceq : tF = fN.take (trimFitCount mF fN 0) := by
      rw [htF, stringArrayTrimToLength_start_eq]
    have hcle : trimFitCount mF fN 0 ≤ fN.length := trimFitCount_le_length mF fN 0
    by_cases hall : trimFitCount mF fN 0 = fN.length
    · left
      rw [hceq, hall, List.take_length]
    · right
      have hlt : trimFitCount mF fN 0 < fN.length := Nat.lt_of_le_of_ne hcle hall
      have hmax := trimFitCount_maximal mF fN 0 hlt
      have hlen : tF.length = trimFitCount mF fN 0 := by
        rw [hceq, List.length_take]
        omega
      rw [hlen]
      omega
  · have hle : trimFitCount mL lN.reverse 0 ≤ lN.length := by
      have := trimFitCount_le_length mL lN.reverse 0
      simpa using this
    by_cases ha : trimFitCount mL lN.reverse 0 = 0
    · have htLeq : tL = lN := by
        rw [htL, stringArrayTrimToLength_end_eq, if_pos ha]
      rcases hrev : lN.reverse with _ | ⟨s, rest⟩
      · left
        have hnil : lN = [] := by
          have := congrArg List.reverse hrev
          simpa using this
        constructor
        · rw [htLeq, hnil]
          simp [stringArrayTotalLength]
        · left; exact htLeq
      · right
        have hsl : 0 + s.length > mL := by
          by_contra hc
          rw [hrev, trimFitCount_cons, if_neg hc] at ha
          omega
        refine ⟨s, ?_, by omega, htLeq⟩
        rw [List.getLast?_eq_head?_reverse, hrev]
        rfl
    · left
      have htLeq : tL = lN.drop (lN.length - trimFitCount mL lN.reverse 0) := by
        rw [htL, stringArrayTrimToLength_end_eq, if_neg ha]
      constructor
      · rw [htL]
        exact stringArrayTrimToLength_end_fits lN mL ha
      · have hlen : tL.length = trimFitCount mL lN.reverse 0 := by
          rw [htLeq, List.length_drop]
          omega
        by_cases hall : trimFitCount mL lN.reverse 0 = lN.length
        · left
          rw [htLeq, hall]
          simp
        · right
          have hlt : trimFitCount mL lN.reverse 0 < lN.reverse.length := by
            simp only [List.length_reverse]
            omega
          have hmax := trimFitCount_maximal mL lN.reverse 0 hlt
          have hbr : stringArrayTotalLength
                (lN.drop (lN.length - (trimFitCount mL lN.reverse 0 + 1)))
              = stringArrayTotalLength (lN.reverse.take (trimFitCount mL lN.reverse 0 + 1)) :=
            stringArrayTotalLength_drop_reverse lN (trimFitCount mL lN.reverse 0 + 1)
          have hidx : lN.length - tL.length - 1
              = lN.length - (trimFitCount mL lN.reverse 0 + 1) := by
            omega
          rw [hidx, hbr]
          omega

/-- C5 witness: the amended proportional-split theorem applied at
`["aa", "bb", "cc"]`, `budget = 3`, `first = 1`, `last = 1`. -/
theorem stringArrayApplyLimits_proportional_split_witness :
    (1 : Nat) ≠ 0 ∧
    stringArrayTotalLength (["aa", "bb", "cc"].take 1)
      + stringArrayTotalLength
          (["aa", "bb", "cc"].drop ((["aa", "bb", "cc"] : List String).length - 1)) > 3 ∧
    ∃ (mF : Nat) (tF tL : List String) (cnt : Int),
      mF = jsFloorMulDiv 3 (stringArrayTotalLength (["aa", "bb", "cc"].take 1))
        (stringArrayTotalLength (["aa", "bb", "cc"].take 1)
          + stringArrayTotalLength
              (["aa", "bb", "cc"].drop ((["aa", "bb", "cc"] : List String).length - 1))) ∧
      tF = stringArrayTrimToLength (["aa", "bb", "cc"].take 1) mF false ∧
      tL = stringArrayTrimToLength
          (["aa", "bb", "cc"].drop ((["aa", "bb", "cc"] : List String).length - 1))
          (3 - mF) true ∧
      stringArrayApplyLimits ["aa", "bb", "cc"] ⟨3, some 1, some 1⟩
        = tF ++ [s!"[{cnt} messages skipped]"] ++ tL ∧
      stringArrayTotalLength tF ≤ mF ∧
      (tF = ["aa", "bb", "cc"].take 1
        ∨ stringArrayTotalLength ((["aa", "bb", "cc"].take 1).take (tF.length + 1)) > mF) ∧
      ((stringArrayTotalLength tL ≤ 3 - mF ∧
          (tL = ["aa", "bb", "cc"].drop ((["aa", "bb", "cc"] : List String).length - 1)
            ∨ stringArrayTotalLength
                ((["aa", "bb", "cc"].drop ((["aa", "bb", "cc"] : List String).length - 1)).drop
                  ((["aa", "bb", "cc"].drop
                      ((["aa", "bb", "cc"] : List String).length - 1)).length - tL.length - 1))
                > 3 - mF))
        ∨ (∃ s, (["aa", "bb", "cc"].drop
              ((["aa", "bb", "cc"] : List String).length - 1)).getLast? = some s
            ∧ s.length > 3 - mF
            ∧ tL = ["aa", "bb", "cc"].drop ((["aa", "bb", "cc"] : List String).length - 1))) :=
  ⟨by decide, by decide,
    stringArrayApplyLimits_proportional_split ["aa", "bb", "cc"] 3 1 1
      (by decide) (by decide) (by decide)⟩

/-- C7: when the total input length is at most the budget and neither
`first` nor `last` is given, `stringArrayApplyLimits` returns the input
unchanged with no marker line. -/
theorem stringArrayApplyLimits_full_pass (strings : List String) (budget : Nat)
    (h : stringArrayTotalLength strings ≤ budget) :
    stringArrayApplyLimits strings ⟨budget, none, none⟩ = strings := by
  have htrim := stringArrayTrimToLength_end_all strings budget h
  unfold stringArrayApplyLimits
  simp only [optCountTruthy, Bool.false_and, Bool.false_eq_true, if_false]
  rw [htrim]
  simp

/-- C7 witness: the full-pass theorem applied at `["ab", "cd"]` with
budget `10`. -/
theorem stringArrayApplyLimits_full_pass_witness :
    stringArrayTotalLength ["ab", "cd"] ≤ 10 ∧
    stringArrayApplyLimits ["ab", "cd"] ⟨10, none, none⟩ = ["ab", "cd"] :=
  ⟨by decide, stringArrayApplyLimits_full_pass ["ab", "cd"] 10 (by decide)⟩

/-! ### Console messages (`browser_console_messages` tool)

`ConsoleMessage` (from `tab.js`, outside the embedded sources) is modelled
by the two fields the tool inspects; its `toString` rendering is an
external collaborator and is passed as a `render` parameter.  The host
regex engine is the `compile` oracle: `compile p` is `some test` when
`new RegExp(p, 'iu')` succeeds and `none` when it throws; the thrown
`SyntaxError` (whose message names the pattern) is modelled as
`Except.error p`. -/

structure ConsoleMessage where
  type : String
  text : String
  deriving DecidableEq

def getConsoleMessageType (message : ConsoleMessage) : String :=
  match message.type with
  | "error" => "error"
  | "warning" => "warning"
  | "log" | "info" => "info"
  | _ => "verbose"

structure ConsoleFilter where
  types : Option (List String)
  pattern : Option String
  deriving DecidableEq

/-- One clause evaluation of `createConsoleFilter`'s `filters.some(...)`
body: the `types` criterion, then the `pattern` criterion (`filter.types`
falsy or empty and `filter.pattern` falsy — `undefined` or `""` — are
skipped). -/
def matchesConsoleFilter (compile : String → Option (String → Bool))
    (filter : ConsoleFilter) (message : ConsoleMessage) : Except String Bool :=
  let typesOk : Bool :=
    match filter.types with
    | some ts => if ts.length > 0 then ts.contains (getConsoleMessageType message) else true
    | none => true
  if !typesOk then Except.ok false
  else
    match filter.pattern with
    | some p =>
      if p = "" then Except.ok true
      else
        match compile p with
        | none => Except.error p
        | some test => Except.ok (test message.text)
    | none => Except.ok true

/-- JS `Array.prototype.some` with a throwing predicate: evaluates left to
right, stops at the first `true` or the first thrown error. -/
def listSomeM {α : Type} (p : α → Except String Bool) : List α → Except String Bool
  | [] => Except.ok false
  | x :: xs =>
    match p x with
    | Except.error e => Except.error e
    | Except.ok true => Except.ok true
    | Except.ok false => listSomeM p xs

/-- JS `Array.prototype.filter` with a throwing predicate. -/
def listFilterM {α : Type} (p : α → Except String Bool) : List α → Except String (List α)
  | [] => Except.ok []
  | x :: xs =>
    match p x with
    | Except.error e => Except.error e
    | Except.ok b =>
      match listFilterM p xs with
      | Except.error e => Except.error e
      | Except.ok rest => Except.ok (if b then x :: rest else rest)

def createConsoleFilter (compile : String → Option (String → Bool))
    (filters : List ConsoleFilter) (isInclude : Bool) (message : ConsoleMessage) :
    Except String Bool :=
  if filters.length = 0 then Except.ok isInclude
  else
    match listSomeM (fun filter => matchesConsoleFilter compile filter message) filters with
    | Except.error e => Except.error e
    | Except.ok matchesAnyFilter =>
      Except.ok (if isInclude then matchesAnyFilter else !matchesAnyFilter)

/-- The two filter stages of the console tool's `handle` (`params.include`
and `params.exclude` are applied only when present; a present-but-empty
array is truthy in JS and is applied). -/
def consoleFilterPipeline (compile : String → Option (String → Bool))
    (messages : List ConsoleMessage)
    (includeFilters excludeFilters : Option (List ConsoleFilter)) :
    Except String (List ConsoleMessage) :=
  match (match includeFilters with
         | some filters => listFilterM (createConsoleFilter compile filters true) messages
         | none => Except.ok messages) with
  | Except.error e => Except.error e
  | Except.ok afterInclude =>
    match excludeFilters with
    | some filters => listFilterM (createConsoleFilter compile filters false) afterInclude
    | none => Except.ok afterInclude

/-- The console tool's `handle`: filter, render each surviving message,
bound with `MAX_TOTAL_TEXT_LENGTH = 2000`. -/
def consoleHandle (compile : String → Option (String → Bool))
    (render : ConsoleMessage → String) (messages : List ConsoleMessage)
    (includeFilters excludeFilters : Option (List ConsoleFilter))
    (first last : Option Nat) : Except String (List String) :=
  match consoleFilterPipeline compile messages includeFilters excludeFilters with
  | Except.error e => Except.error e
  | Except.ok filtered =>
    Except.ok (stringArrayApplyLimits (filtered.map render) ⟨2000, first, last⟩)

/-! ### Network requests (`browser_network_requests` tool)

The URL parser is the `host` oracle: `host u` is `some hostname` when
`new URL(u).hostname` succeeds and `none` when it throws. -/

structure Request where
  url : String
  method : String
  deriving DecidableEq

structure Response where
  status : Nat
  statusText : String
  deriving DecidableEq

structure NetworkFilter where
  statuses : Option (List (Nat × Nat))
  types : Option (List String)
  pattern : Option String
  deriving DecidableEq

def getNetworkRequestType (host : String → Option String)
    (request : Request) (currentPageUrl : String) : String :=
  let url := request.url
  if url.startsWith "chrome-extension://" || url.startsWith "moz-extension://" then
    "extension"
  else
    match host url, host currentPageUrl with
    | some requestDomain, some currentDomain =>
      if requestDomain = currentDomain then "sameHost" else "3rd-party"
    | _, _ => "3rd-party"

/-- One clause evaluation of `createNetworkFilter`'s `filters.some(...)`
body: the `statuses` criterion is checked only when `filter.statuses` is
present and nonempty AND the entry has a response (`&& response` in the
source); then `types`, then `pattern`. -/
def matchesNetworkFilter (compile : String → Option (String → Bool))
    (host : String → Option String) (currentPageUrl : String)
    (filter : NetworkFilter) (entry : Request × Option Response) :
    Except String Bool :=
  let statusesOk : Bool :=
    match filter.statuses, entry.2 with
    | some ranges, some res =>
      if ranges.length > 0 then
        ranges.any (fun range =>
          decide (res.status ≥ range.1) && decide (res.status ≤ range.2))
      else true
    | _, _ => true
  if !statusesOk then Except.ok false
  else
    let typesOk : Bool :=
      match filter.types with
      | some ts =>
        if ts.length > 0 then ts.contains (getNetworkRequestType host entry.1 currentPageUrl)
        else true
      | none => true
    if !typesOk then Except.ok false
    else
      match filter.pattern with
      | some p =>
        if p = "" then Except.ok true
        else
          match compile p with
          | none => Except.error p
          | some test => Except.ok (test entry.1.url)
      | none => Except.ok true

def createNetworkFilter (compile : String → Option (String → Bool))
    (host : String → Option String) (filters : List NetworkFilter)
    (isInclude : Bool) (currentPageUrl : String) (entry : Request × Option Response) :
    Except String Bool :=
  if filters.length = 0 then Except.ok isInclude
  else
    match listSomeM
        (fun filter => matchesNetworkFilter compile host currentPageUrl filter entry)
        filters with
    | Except.error e => Except.error e
    | Except.ok matchesAnyFilter =>
      Except.ok (if isInclude then matchesAnyFilter else !matchesAnyFilter)

/-- The two filter stages of the network tool's `handle`. -/
def networkFilterPipeline (compile : String → Option (String → Bool))
    (host : String → Option String) (currentPageUrl : String)
    (requestEntries : List (Request × Option Response))
    (includeFilters excludeFilters : Option (List NetworkFilter)) :
    Except String (List (Request × Option Response)) :=
  match (match includeFilters with
         | some filters =>
           listFilterM (createNetworkFilter compile host filters true currentPageUrl)
             requestEntries
         | none => Except.ok requestEntries) with
  | Except.error e => Except.error e
  | Except.ok afterInclude =>
    match excludeFilters with
    | some filters =>
      listFilterM (createNetworkFilter compile host filters false currentPageUrl) afterInclude
    | none => Except.ok afterInclude

def renderRequest (request : Request) (response : Option Response) : String :=
  let methodUpper := request.method.toUpper
  let url := request.url
  let head := s!"[{methodUpper}] {url}"
  match response with
  | some res =>
    let status := res.status
    let statusText := res.statusText
    head ++ " " ++ s!"=> [{status}] {statusText}"
  | none => head

/-- The network tool's `handle`: filter, render, bound with
`MAX_TOTAL_TEXT_LENGTH = 2000`, and substitute the explanatory line when
nothing survives. -/
def requestsHandle (compile : String → Option (String → Bool))
    (host : String → Option String)
    (requestEntries : List (Request × Option Response)) (currentPageUrl : String)
    (includeFilters excludeFilters : Option (List NetworkFilter))
    (first last : Option Nat) : Except String (List String) :=
  match networkFilterPipeline compile host currentPageUrl requestEntries
      includeFilters excludeFilters with
  | Except.error e => Except.error e
  | Except.ok filtered =>
    let requestStrings := filtered.map (fun entry => renderRequest entry.1 entry.2)
    let resultStrings := stringArrayApplyLimits requestStrings ⟨2000, first, last⟩
    Except.ok (if resultStrings.length = 0 then
        ["No network requests found matching the specified filters"]
      else resultStrings)

/-! Sanity checks for the filter embedding. -/

example : getConsoleMessageType ⟨"log", "x"⟩ = "info" := by decide
example : getConsoleMessageType ⟨"debug", "x"⟩ = "verbose" := by decide
example :
    matchesNetworkFilter (fun _ => none) (fun _ => none) "u"
      ⟨some [(200, 299)], none, none⟩ (⟨"http://x/", "get"⟩, none) = Except.ok true := rfl
example :
    matchesNetworkFilter (fun _ => none) (fun _ => none) "u"
      ⟨some [(200, 299)], none, none⟩ (⟨"http://x/", "get"⟩, some ⟨404, "Not Found"⟩)
      = Except.ok false := rfl

/-! ### Lemmas about the throwing list combinators -/

theorem listSomeM_eq_false {α : Type} (p : α → Except String Bool) :
    ∀ (l : List α), listSomeM p l = Except.ok false → ∀ x ∈ l, p x = Except.ok false := by
  intro l
  induction l with
  | nil => intro _ x hx; cases hx
  | cons y ys ih =>
    intro h x hx
    cases hpy : p y with
    | error e => simp [listSomeM, hpy] at h
    | ok b =>
      cases b with
      | true => simp [listSomeM, hpy] at h
      | false =>
        rcases List.mem_cons.mp hx with rfl | hx'
        · exact hpy
        · refine ih ?_ x hx'
          simpa [listSomeM, hpy] using h

theorem listFilterM_mem {α : Type} (p : α → Except String Bool) :
    ∀ (l out : List α), listFilterM p l = Except.ok out →
      ∀ x ∈ out, p x = Except.ok true := by
  intro l
  induction l with
  | nil =>
    intro out h x hx
    simp [listFilterM] at h
    subst h
    cases hx
  | cons y ys ih =>
    intro out h x hx
    cases hpy : p y with
    | error e => simp [listFilterM, hpy] at h
    | ok b =>
      cases hys : listFilterM p ys with
      | error e => simp [listFilterM, hpy, hys] at h
      | ok rest =>
        have hout : out = if b then y :: rest else rest := by
          simp [listFilterM, hpy, hys] at h
          exact h.symm
        cases b with
        | false =>
          subst hout
          exact ih _ hys x hx
        | true =>
          subst hout
          rcases List.mem_cons.mp hx with rfl | hx'
          · exact hpy
          · exact ih rest hys x hx'

theorem listFilterM_all_true {α : Type} (p : α → Except String Bool)
    (hp : ∀ x, p x = Except.ok true) :
    ∀ l : List α, listFilterM p l = Except.ok l := by
  intro l
  induction l with
  | nil => rfl
  | cons y ys ih => simp [listFilterM, hp, ih]

theorem listFilterM_all_false {α : Type} (p : α → Except String Bool)
    (hp : ∀ x, p x = Except.ok false) :
    ∀ l : List α, listFilterM p l = Except.ok [] := by
  intro l
  induction l with
  | nil => rfl
  | cons y ys ih => simp [listFilterM, hp, ih]

theorem listSomeM_append_error {α : Type} (p : α → Except String Bool) (e : String)
    (c : α) (l2 : List α) :
    ∀ l1 : List α, (∀ x ∈ l1, p x = Except.ok false) → p c = Except.error e →
      listSomeM p (l1 ++ c :: l2) = Except.error e := by
  intro l1
  induction l1 with
  | nil => intro _ hc; simp [listSomeM, hc]
  | cons y ys ih =>
    intro hall hc
    have hy := hall y (List.mem_cons_self _ _)
    have ht := ih (fun x hx => hall x (List.mem_cons_of_mem _ hx)) hc
    simp [listSomeM, hy, ht]

theorem listFilterM_append_error {α : Type} (p : α → Except String Bool) (e : String)
    (m : α) (l2 : List α) :
    ∀ l1 : List α, (∀ x ∈ l1, ∃ b, p x = Except.ok b) → p m = Except.error e →
      listFilterM p (l1 ++ m :: l2) = Except.error e := by
  intro l1
  induction l1 with
  | nil => intro _ hm; simp [listFilterM, hm]
  | cons y ys ih =>
    intro hall hm
    obtain ⟨b, hy⟩ := hall y (List.mem_cons_self _ _)
    have ht := ih (fun x hx => hall x (List.mem_cons_of_mem _ hx)) hm
    simp [listFilterM, hy, ht]

/-- A console clause whose earlier criterion (`types`) is absent, empty or
satisfied for the record, and whose pattern is nonempty and malformed,
evaluates to the host error carrying the pattern. -/
theorem matchesConsoleFilter_reaches_error
    (compile : String → Option (String → Bool)) (msg : ConsoleMessage)
    (ctypes : Option (List String)) (p : String)
    (hcomp : compile p = none) (hp : p ≠ "")
    (htypes : ctypes = none ∨ ∃ ts, ctypes = some ts
        ∧ (ts.length = 0 ∨ ts.contains (getConsoleMessageType msg) = true)) :
    matchesConsoleFilter compile ⟨ctypes, some p⟩ msg = Except.error p := by
  rcases htypes with rfl | ⟨ts, rfl, hts⟩
  · simp [matchesConsoleFilter, hp, hcomp]
  · rcases hts with h0 | hcont
    · simp [matchesConsoleFilter, h0, hp, hcomp]
    · have hmem : getConsoleMessageType msg ∈ ts := by simpa using hcont
      simp [matchesConsoleFilter, hp, hcomp, hmem]

/-- A network clause whose earlier criteria (`statuses`, `types`) are each
absent, inapplicable, empty or satisfied for the record, and whose pattern
is nonempty and malformed, evaluates to the host error carrying the
pattern. -/
theorem matchesNetworkFilter_reaches_error
    (compile : String → Option (String → Bool)) (host : String → Option String)
    (currentPageUrl : String) (request : Request) (resOpt : Option Response)
    (nstat : Option (List (Nat × Nat))) (ntypes : Option (List String)) (p : String)
    (hcomp : compile p = none) (hp : p ≠ "")
    (hstat : nstat = none ∨ resOpt = none
        ∨ ∃ rs res, nstat = some rs ∧ resOpt = some res
            ∧ (rs.length = 0
               ∨ (rs.any fun range =>
                    decide (res.status ≥ range.1) && decide (res.status ≤ range.2)) = true))
    (htypes : ntypes = none ∨ ∃ ts, ntypes = some ts
        ∧ (ts.length = 0
           ∨ ts.contains (getNetworkRequestType host request currentPageUrl) = true)) :
    matchesNetworkFilter compile host currentPageUrl ⟨nstat, ntypes, some p⟩
      (request, resOpt) = Except.error p := by
  rcases htypes with rfl | ⟨ts, rfl, hts⟩
  · rcases hstat with rfl | rfl | ⟨rs, res, rfl, rfl, h0 | hany⟩
    · simp [matchesNetworkFilter, hp, hcomp]
    · cases nstat <;> simp [matchesNetworkFilter, hp, hcomp]
    · simp [matchesNetworkFilter, hp, hcomp, h0]
    · simp [matchesNetworkFilter, hp, hcomp, hany]
  · rcases hts with h0t | hcont
    · rcases hstat with rfl | rfl | ⟨rs, res, rfl, rfl, h0 | hany⟩
      · simp [matchesNetworkFilter, hp, hcomp, h0t]
      · cases nstat <;> simp [matchesNetworkFilter, hp, hcomp, h0t]
      · simp [matchesNetworkFilter, hp, hcomp, h0, h0t]
      · simp [matchesNetworkFilter, hp, hcomp, hany, h0t]
    · have hm : getNetworkRequestType host request currentPageUrl ∈ ts := by
        simpa using hcont
      rcases hstat with rfl | rfl | ⟨rs, res, rfl, rfl, h0 | hany⟩
      · simp [matchesNetworkFilter, hp, hcomp, hm]
      · cases nstat <;> simp [matchesNetworkFilter, hp, hcomp, hm]
      · simp [matchesNetworkFilter, hp, hcomp, h0, hm]
      · simp [matchesNetworkFilter, hp, hcomp, hany, hm]

/-- If every clause before `c` evaluates to `ok false` on `msg` and `c`
raises an error, the whole `createConsoleFilter` predicate raises that
error on `msg` (for include and exclude alike). -/
theorem createConsoleFilter_reaches_error
    (compile : String → Option (String → Bool)) (isInclude : Bool)
    (msg : ConsoleMessage) (c : ConsoleFilter) (cl1 cl2 : List ConsoleFilter) (e : String)
    (hprev : ∀ x ∈ cl1, matchesConsoleFilter compile x msg = Except.ok false)
    (hc : matchesConsoleFilter compile c msg = Except.error e) :
    createConsoleFilter compile (cl1 ++ c :: cl2) isInclude msg = Except.error e := by
  have hs := listSomeM_append_error
    (fun filter => matchesConsoleFilter compile filter msg) e c cl2 cl1 hprev hc
  have hlen : ¬ ((cl1 ++ c :: cl2).length = 0) := by simp
  unfold createConsoleFilter
  rw [if_neg hlen, hs]

/-- Network analogue of `createConsoleFilter_reaches_error`. -/
theorem createNetworkFilter_reaches_error
    (compile : String → Option (String → Bool)) (host : String → Option String)
    (isInclude : Bool) (currentPageUrl : String) (entry : Request × Option Response)
    (c : NetworkFilter) (nl1 nl2 : List NetworkFilter) (e : String)
    (hprev : ∀ x ∈ nl1,
      matchesNetworkFilter compile host currentPageUrl x entry = Except.ok false)
    (hc : matchesNetworkFilter compile host currentPageUrl c entry = Except.error e) :
    createNetworkFilter compile host (nl1 ++ c :: nl2) isInclude currentPageUrl entry
      = Except.error e := by
  have hs := listSomeM_append_error
    (fun filter => matchesNetworkFilter compile host currentPageUrl filter entry)
    e c nl2 nl1 hprev hc
  have hlen : ¬ ((nl1 ++ c :: nl2).length = 0) := by simp
  unfold createNetworkFilter
  rw [if_neg hlen, hs]

/-! ### Claims about the filter pipelines -/

/-- C3: for every record sequence and filter sets, a record that matches
at least one clause of the exclude set is absent from the filtered output
regardless of the include set — exclude strictly overrides include, for
both the console and the network filter pipelines (whenever the pipeline
returns a result at all). -/
theorem filter_exclude_precedence
    (compile : String → Option (String → Bool)) (host : String → Option String)
    (currentPageUrl : String)
    (messages : List ConsoleMessage) (cInc cExc : List ConsoleFilter)
    (msg : ConsoleMessage) (cOut : List ConsoleMessage)
    (requestEntries : List (Request × Option Response)) (nInc nExc : List NetworkFilter)
    (entry : Request × Option Response) (nOut : List (Request × Option Response)) :
    ((∃ c ∈ cExc, matchesConsoleFilter compile c msg = Except.ok true) →
      consoleFilterPipeline compile messages (some cInc) (some cExc) = Except.ok cOut →
      msg ∉ cOut)
    ∧ ((∃ c ∈ nExc, matchesNetworkFilter compile host currentPageUrl c entry = Except.ok true) →
      networkFilterPipeline compile host currentPageUrl requestEntries (some nInc) (some nExc)
        = Except.ok nOut →
      entry ∉ nOut) := by
  constructor
  · rintro ⟨c, hc, hmatch⟩ hpipe hmem
    have hlen : ¬ (cExc.length = 0) := by
      intro h0
      rw [List.length_eq_zero] at h0
      subst h0
      cases hc
    simp only [consoleFilterPipeline] at hpipe
    cases h1 : listFilterM (createConsoleFilter compile cInc true) messages with
    | error e => simp only [h1] at hpipe; cases hpipe
    | ok m1 =>
      simp only [h1] at hpipe
      have hkept := listFilterM_mem _ m1 cOut hpipe msg hmem
      unfold createConsoleFilter at hkept
      rw [if_neg hlen] at hkept
      cases hsome : listSomeM (fun filter => matchesConsoleFilter compile filter msg) cExc with
      | error e => simp only [hsome] at hkept; cases hkept
      | ok m =>
        simp only [hsome] at hkept
        cases m with
        | false =>
          have hall := listSomeM_eq_false _ cExc hsome c hc
          rw [hmatch] at hall
          cases hall
        | true => simp at hkept
  · rintro ⟨c, hc, hmatch⟩ hpipe hmem
    have hlen : ¬ (nExc.length = 0) := by
      intro h0
      rw [List.length_eq_zero] at h0
      subst h0
      cases hc
    simp only [networkFilterPipeline] at hpipe
    cases h1 : listFilterM (createNetworkFilter compile host nInc true currentPageUrl)
        requestEntries with
    | error e => simp only [h1] at hpipe; cases hpipe
    | ok m1 =>
      simp only [h1] at hpipe
      have hkept := listFilterM_mem _ m1 nOut hpipe entry hmem
      unfold createNetworkFilter at hkept
      rw [if_neg hlen] at hkept
      cases hsome : listSomeM
          (fun filter => matchesNetworkFilter compile host currentPageUrl filter entry)
          nExc with
      | error e => simp only [hsome] at hkept; cases hkept
      | ok m =>
        simp only [hsome] at hkept
        cases m with
        | false =>
          have hall := listSomeM_eq_false _ nExc hsome c hc
          rw [hmatch] at hall
          cases hall
        | true => simp at hkept

/-- C3 witness: an error-typed message matching the exclude clause
`{types: ["error"]}` is absent from the console result, and a request
matching the exclude clause `{pattern: "x"}` (under an
everything-matches regex oracle) is absent from the network result. -/
theorem filter_exclude_precedence_witness :
    ((⟨"error", "boom"⟩ : ConsoleMessage) ∉ ([] : List ConsoleMessage))
    ∧ (((⟨"http://x/", "get"⟩, none) : Request × Option Response)
        ∉ ([] : List (Request × Option Response))) := by
  constructor
  · exact (filter_exclude_precedence (fun _ => none) (fun _ => none) "u"
      [⟨"error", "boom"⟩] [] [⟨some ["error"], none⟩] ⟨"error", "boom"⟩ []
      [(⟨"http://x/", "get"⟩, none)] [] [⟨none, none, some "x"⟩]
      (⟨"http://x/", "get"⟩, none) []).1
      ⟨⟨some ["error"], none⟩, List.mem_cons_self _ _, rfl⟩ rfl
  · exact (filter_exclude_precedence (fun _ => some (fun _ => true)) (fun _ => none) "u"
      [⟨"error", "boom"⟩] [] [⟨some ["error"], none⟩] ⟨"error", "boom"⟩ []
      [(⟨"http://x/", "get"⟩, none)] [] [⟨none, none, some "x"⟩]
      (⟨"http://x/", "get"⟩, none) []).2
      ⟨⟨none, none, some "x"⟩, List.mem_cons_self _ _, rfl⟩ rfl

/-- C9: with an empty clause list the generated predicate returns the
`isInclude` flag itself, for both filter kinds; consequently an explicit
`include: []` lets every record pass the include stage and an explicit
`exclude: []` excludes every record. -/
theorem filter_empty_list_semantics
    (compile : String → Option (String → Bool)) (host : String → Option String)
    (currentPageUrl : String) (isInclude : Bool)
    (message : ConsoleMessage) (entry : Request × Option Response)
    (messages : List ConsoleMessage)
    (requestEntries : List (Request × Option Response)) :
    createConsoleFilter compile [] isInclude message = Except.ok isInclude
    ∧ createNetworkFilter compile host [] isInclude currentPageUrl entry
        = Except.ok isInclude
    ∧ consoleFilterPipeline compile messages (some []) none = Except.ok messages
    ∧ consoleFilterPipeline compile messages none (some []) = Except.ok []
    ∧ networkFilterPipeline compile host currentPageUrl requestEntries (some []) none
        = Except.ok requestEntries
    ∧ networkFilterPipeline compile host currentPageUrl requestEntries none (some [])
        = Except.ok [] := by
  refine ⟨rfl, rfl, ?_, ?_, ?_, ?_⟩
  · have h1 := listFilterM_all_true (createConsoleFilter compile [] true)
      (fun m => rfl) messages
    simp [consoleFilterPipeline, h1]
  · have h1 := listFilterM_all_false (createConsoleFilter compile [] false)
      (fun m => rfl) messages
    simp [consoleFilterPipeline, h1]
  · have h1 := listFilterM_all_true (createNetworkFilter compile host [] true currentPageUrl)
      (fun x => rfl) requestEntries
    simp [networkFilterPipeline, h1]
  · have h1 := listFilterM_all_false (createNetworkFilter compile host [] false currentPageUrl)
      (fun x => rfl) requestEntries
    simp [networkFilterPipeline, h1]

/-- Severity classification as the claim states it (spec side, for the
refinement comparison with the source's `getConsoleMessageType`). -/
def consoleSeveritySpec (tag : String) : String :=
  if tag = "error" then "error"
  else if tag = "warning" then "warning"
  else if tag = "log" ∨ tag = "info" then "info"
  else "verbose"

/-- C10: `getConsoleMessageType` is a total deterministic function of the
raw source-level tag: `error ↦ error`, `warning ↦ warning`, `log` and
`info ↦ info`, and every other tag `↦ verbose`. -/
theorem getConsoleMessageType_spec_c10 (tag text : String) :
    getConsoleMessageType ⟨tag, text⟩ = consoleSeveritySpec tag := by
  unfold getConsoleMessageType
  split <;> simp_all [consoleSeveritySpec]

/-- C4 counterexample: a request whose paired outcome is absent DOES
satisfy a clause consisting solely of a status-range criterion — the
source guard `filter.statuses && filter.statuses.length > 0 && response`
skips the criterion when there is no response, so the clause matches and
a status-only include filter keeps the outcome-less request. -/
theorem network_status_without_response_matches_c4 :
    matchesNetworkFilter (fun _ => none) (fun _ => none) "u"
        ⟨some [(200, 299)], none, none⟩ (⟨"http://x/", "get"⟩, none) = Except.ok true
    ∧ networkFilterPipeline (fun _ => none) (fun _ => none) "u"
        [(⟨"http://x/", "get"⟩, none)] (some [⟨some [(200, 299)], none, none⟩]) none
      = Except.ok [(⟨"http://x/", "get"⟩, none)] := ⟨rfl, rfl⟩

/-- C4 (amended): for a network record with no paired outcome, the
status-range criterion of a clause is skipped (vacuously satisfied), so
the clause behaves exactly as the same clause with the `statuses`
criterion removed — in include and exclude alike. -/
theorem matchesNetworkFilter_no_response_ignores_statuses
    (compile : String → Option (String → Bool)) (host : String → Option String)
    (currentPageUrl : String) (filter : NetworkFilter) (request : Request) :
    matchesNetworkFilter compile host currentPageUrl filter (request, none)
      = matchesNetworkFilter compile host currentPageUrl
          ⟨none, filter.types, filter.pattern⟩ (request, none) := by
  cases filter with
  | mk statuses types pat =>
    cases statuses with
    | none => rfl
    | some ranges => rfl

/-- C6 counterexample: a malformed pattern (the `compile` oracle rejects
`"("`) present in an include clause does not fail the query when no
record evaluation reaches it: here the only message fails the clause's
`types` criterion first, so the pattern is never compiled and the call
succeeds (with an empty result) instead of failing. -/
theorem console_malformed_pattern_no_error_c6 :
    (fun _ : String => (none : Option (String → Bool))) "(" = none
    ∧ consoleHandle (fun _ => none) (fun m => m.text) [⟨"error", "boom"⟩]
        (some [⟨some ["warning"], some "("⟩]) none none none = Except.ok [] :=
  ⟨rfl, rfl⟩

/-- C6 (amended): when clause evaluation does reach a malformed pattern
for some record — the clause's earlier criteria (`types`; for network
also `statuses`) are absent, empty, inapplicable or satisfied for that
record, every earlier clause of the list evaluated to `ok false` on it,
and every earlier record evaluated without error — the query fails for
that call with the host's pattern error, which carries the offending
pattern, and no partial results are returned; for the console and the
network tools, in the include stage and the exclude stage alike. -/
theorem filter_invalid_regex_fails_query
    (compile : String → Option (String → Bool)) (host : String → Option String)
    (render : ConsoleMessage → String) (currentPageUrl : String)
    (p e : String) (isInclude : Bool)
    (msg : ConsoleMessage) (ctypes : Option (List String)) (c : ConsoleFilter)
    (cl1 cl2 : List ConsoleFilter) (ms1 ms2 : List ConsoleMessage)
    (request : Request) (resOpt : Option Response)
    (nstat : Option (List (Nat × Nat))) (ntypes : Option (List String))
    (nc : NetworkFilter) (nl1 nl2 : List NetworkFilter)
    (entry : Request × Option Response) (ne1 ne2 : List (Request × Option Response))
    (msgs m1 : List ConsoleMessage) (fi gi fe : List ConsoleFilter)
    (cExcOpt : Option (List ConsoleFilter))
    (nentries nm1 : List (Request × Option Response)) (nfi ngi nfe : List NetworkFilter)
    (nExcOpt : Option (List NetworkFilter)) (first last : Option Nat) :
    (compile p = none → p ≠ "" →
      (ctypes = none ∨ ∃ ts, ctypes = some ts
          ∧ (ts.length = 0 ∨ ts.contains (getConsoleMessageType msg) = true)) →
      matchesConsoleFilter compile ⟨ctypes, some p⟩ msg = Except.error p)
    ∧ (compile p = none → p ≠ "" →
      (nstat = none ∨ resOpt = none
        ∨ ∃ rs res, nstat = some rs ∧ resOpt = some res
            ∧ (rs.length = 0
               ∨ (rs.any fun range =>
                    decide (res.status ≥ range.1) && decide (res.status ≤ range.2)) = true)) →
      (ntypes = none ∨ ∃ ts, ntypes = some ts
          ∧ (ts.length = 0
             ∨ ts.contains (getNetworkRequestType host request currentPageUrl) = true)) →
      matchesNetworkFilter compile host currentPageUrl ⟨nstat, ntypes, some p⟩
        (request, resOpt) = Except.error p)
    ∧ ((∀ x ∈ ms1, ∃ b,
          createConsoleFilter compile (cl1 ++ c :: cl2) isInclude x = Except.ok b) →
      (∀ x ∈ cl1, matchesConsoleFilter compile x msg = Except.ok false) →
      matchesConsoleFilter compile c msg = Except.error e →
      listFilterM (createConsoleFilter compile (cl1 ++ c :: cl2) isInclude)
        (ms1 ++ msg :: ms2) = Except.error e)
    ∧ ((∀ x ∈ ne1, ∃ b,
          createNetworkFilter compile host (nl1 ++ nc :: nl2) isInclude currentPageUrl x
            = Except.ok b) →
      (∀ x ∈ nl1, matchesNetworkFilter compile host currentPageUrl x entry
          = Except.ok false) →
      matchesNetworkFilter compile host currentPageUrl nc entry = Except.error e →
      listFilterM (createNetworkFilter compile host (nl1 ++ nc :: nl2) isInclude currentPageUrl)
        (ne1 ++ entry :: ne2) = Except.error e)
    ∧ (listFilterM (createConsoleFilter compile fi true) msgs = Except.error e →
      consoleHandle compile render msgs (some fi) cExcOpt first last = Except.error e)
    ∧ (listFilterM (createConsoleFilter compile gi true) msgs = Except.ok m1 →
      listFilterM (createConsoleFilter compile fe false) m1 = Except.error e →
      consoleHandle compile render msgs (some gi) (some fe) first last = Except.error e)
    ∧ (listFilterM (createNetworkFilter compile host nfi true currentPageUrl) nentries
          = Except.error e →
      requestsHandle compile host nentries currentPageUrl (some nfi) nExcOpt first last
        = Except.error e)
    ∧ (listFilterM (createNetworkFilter compile host ngi true currentPageUrl) nentries
          = Except.ok nm1 →
      listFilterM (createNetworkFilter compile host nfe false currentPageUrl) nm1
          = Except.error e →
      requestsHandle compile host nentries currentPageUrl (some ngi) (some nfe) first last
        = Except.error e) := by
  refine ⟨?_, ?_, ?_, ?_, ?_, ?_, ?_, ?_⟩
  · intro hcomp hp ht
    exact matchesConsoleFilter_reaches_error compile msg ctypes p hcomp hp ht
  · intro hcomp hp hst ht
    exact matchesNetworkFilter_reaches_error compile host currentPageUrl request resOpt
      nstat ntypes p hcomp hp hst ht
  · intro h1 h2 h3
    exact listFilterM_append_error _ e msg ms2 ms1 h1
      (createConsoleFilter_reaches_error compile isInclude msg c cl1 cl2 e h2 h3)
  · intro h1 h2 h3
    exact listFilterM_append_error _ e entry ne2 ne1 h1
      (createNetworkFilter_reaches_error compile host isInclude currentPageUrl entry
        nc nl1 nl2 e h2 h3)
  · intro hpipe
    simp [consoleHandle, consoleFilterPipeline, hpipe]
  · intro h1 h2
    simp [consoleHandle, consoleFilterPipeline, h1, h2]
  · intro hpipe
    simp [requestsHandle, networkFilterPipeline, hpipe]
  · intro h1 h2
    simp [requestsHandle, networkFilterPipeline, h1, h2]

/-- C6 witness: the pattern `"("` is rejected by the oracle; the console
clause `{types: ["error"], pattern: "("}` is reached by the error-typed
message after an earlier non-matching clause and an earlier error-free
message, the network clause `{statuses: [[200,299]], pattern: "("}` is
reached by a request whose 204 response is in range, and all four full
query calls (include stage and exclude stage, console and network)
return the pattern as the error with no results. -/
theorem filter_invalid_regex_fails_query_witness :
    matchesConsoleFilter (fun _ => none) ⟨some ["error"], some "("⟩ ⟨"error", "boom"⟩
        = Except.error "("
    ∧ matchesNetworkFilter (fun _ => none) (fun _ => none) "u"
        ⟨some [(200, 299)], none, some "("⟩ (⟨"http://x/", "get"⟩, some ⟨204, "No Content"⟩)
        = Except.error "("
    ∧ listFilterM
        (createConsoleFilter (fun _ => none)
          [⟨some ["warning"], none⟩, ⟨some ["error"], some "("⟩] true)
        [⟨"warning", "first"⟩, ⟨"error", "boom"⟩] = Except.error "("
    ∧ listFilterM
        (createNetworkFilter (fun _ => none) (fun _ => none)
          [⟨some [(500, 599)], none, none⟩, ⟨some [(200, 299)], none, some "("⟩] true "u")
        [(⟨"http://y/", "get"⟩, none), (⟨"http://x/", "get"⟩, some ⟨204, "No Content"⟩)]
        = Except.error "("
    ∧ consoleHandle (fun _ => none) (fun m => m.text)
        [⟨"warning", "first"⟩, ⟨"error", "boom"⟩]
        (some [⟨some ["warning"], none⟩, ⟨some ["error"], some "("⟩]) none none none
        = Except.error "("
    ∧ consoleHandle (fun _ => none) (fun m => m.text)
        [⟨"warning", "first"⟩, ⟨"error", "boom"⟩]
        (some []) (some [⟨some ["warning"], none⟩, ⟨some ["error"], some "("⟩]) none none
        = Except.error "("
    ∧ requestsHandle (fun _ => none) (fun _ => none)
        [(⟨"http://y/", "get"⟩, none), (⟨"http://x/", "get"⟩, some ⟨204, "No Content"⟩)] "u"
        (some [⟨some [(500, 599)], none, none⟩, ⟨some [(200, 299)], none, some "("⟩])
        none none none = Except.error "("
    ∧ requestsHandle (fun _ => none) (fun _ => none)
        [(⟨"http://y/", "get"⟩, none), (⟨"http://x/", "get"⟩, some ⟨204, "No Content"⟩)] "u"
        (some [])
        (some [⟨some [(500, 599)], none, none⟩, ⟨some [(200, 299)], none, some "("⟩])
        none none = Except.error "(" := by
  have T := filter_invalid_regex_fails_query (fun _ => none) (fun _ => none)
    (fun m => m.text) "u" "(" "(" true
    ⟨"error", "boom"⟩ (some ["error"]) ⟨some ["error"], some "("⟩
    [⟨some ["warning"], none⟩] [] [⟨"warning", "first"⟩] []
    ⟨"http://x/", "get"⟩ (some ⟨204, "No Content"⟩)
    (some [(200, 299)]) none
    ⟨some [(200, 299)], none, some "("⟩ [⟨some [(500, 599)], none, none⟩] []
    (⟨"http://x/", "get"⟩, some ⟨204, "No Content"⟩) [(⟨"http://y/", "get"⟩, none)] []
    [⟨"warning", "first"⟩, ⟨"error", "boom"⟩] [⟨"warning", "first"⟩, ⟨"error", "boom"⟩]
    [⟨some ["warning"], none⟩, ⟨some ["error"], some "("⟩] []
    [⟨some ["warning"], none⟩, ⟨some ["error"], some "("⟩] none
    [(⟨"http://y/", "get"⟩, none), (⟨"http://x/", "get"⟩, some ⟨204, "No Content"⟩)]
    [(⟨"http://y/", "get"⟩, none), (⟨"http://x/", "get"⟩, some ⟨204, "No Content"⟩)]
    [⟨some [(500, 599)], none, none⟩, ⟨some [(200, 299)], none, some "("⟩] []
    [⟨some [(500, 599)], none, none⟩, ⟨some [(200, 299)], none, some "("⟩] none
    none none
  refine ⟨?_, ?_, ?_, ?_, ?_, ?_, ?_, ?_⟩
  · exact T.1 rfl (by decide) (Or.inr ⟨["error"], rfl, Or.inr (by decide)⟩)
  · exact T.2.1 rfl (by decide)
      (Or.inr (Or.inr ⟨[(200, 299)], ⟨204, "No Content"⟩, rfl, rfl, Or.inr (by decide)⟩))
      (Or.inl rfl)
  · exact T.2.2.1
      (by intro x hx; simp at hx; subst hx; exact ⟨true, rfl⟩)
      (by intro x hx; simp at hx; subst hx; rfl)
      rfl
  · exact T.2.2.2.1
      (by intro x hx; simp at hx; subst hx; exact ⟨true, rfl⟩)
      (by intro x hx; simp at hx; subst hx; rfl)
      rfl
  · exact T.2.2.2.2.1 rfl
  · exact T.2.2.2.2.2.1 rfl rfl
  · exact T.2.2.2.2.2.2.1 rfl
  · exact T.2.2.2.2.2.2.2 rfl rfl
